import Mathlib

/-!
Verification of the graphql_sdk_gen / ariadne-codegen core against its
natural-language specification.

Part 1 models Python's string ordering (lexicographic on Unicode code
points), which `list.sort()` uses on the export names.

Part 2 models `src/graphql_sdk_gen/generators/init_file.py`
(the Package Assembler): the `InitFileGenerator` class, whose state is a
Python list of `ast.ImportFrom` statements, and whose `generate` method
builds an `ast.Module` sharing that very list as its body, then (when the
list is non-empty) appends an `__all__ = [...]` assignment holding the
lexicographically sorted concatenation of every imported name.
-/

namespace GraphQLSdkGen

/-- Python's comparison of two strings viewed as lists of characters:
lexicographic on Unicode code points. -/
def charListLe : List Char → List Char → Bool
  | [], _ => true
  | _ :: _, [] => false
  | a :: as, b :: bs =>
    if a.toNat < b.toNat then true
    else if b.toNat < a.toNat then false
    else charListLe as bs

/-- Python's `<=` on strings. -/
def pyStrLe (a b : String) : Bool := charListLe a.data b.data

/-- Python's `<=` on strings, as a relation. -/
def pyLe (a b : String) : Prop := pyStrLe a b = true

instance : DecidableRel pyLe := fun _ _ => instDecidableEqBool _ _

theorem charListLe_total (as : List Char) :
    ∀ bs, charListLe as bs = true ∨ charListLe bs as = true := by
  induction as with
  | nil => intro bs; left; rfl
  | cons a as ih =>
    intro bs
    cases bs with
    | nil => right; rfl
    | cons b bs =>
      by_cases h1 : a.toNat < b.toNat
      · left; simp [charListLe, h1]
      · by_cases h2 : b.toNat < a.toNat
        · right; simp [charListLe, h2]
        · rcases ih bs with h | h
          · left; simp [charListLe, h1, h2, h]
          · right; simp [charListLe, h1, h2, h]

theorem charListLe_trans (as : List Char) :
    ∀ bs cs, charListLe as bs = true → charListLe bs cs = true →
      charListLe as cs = true := by
  induction as with
  | nil => intro bs cs _ _; rfl
  | cons a as ih =>
    intro bs cs h1 h2
    cases bs with
    | nil => simp [charListLe] at h1
    | cons b bs =>
      cases cs with
      | nil => simp [charListLe] at h2
      | cons c cs =>
        by_cases hab : a.toNat < b.toNat <;> by_cases hbc : b.toNat < c.toNat
        · have hac : a.toNat < c.toNat := Nat.lt_trans hab hbc
          simp [charListLe, hac]
        · by_cases hcb : c.toNat < b.toNat
          · simp [charListLe, hbc, hcb] at h2
          · have hac : a.toNat < c.toNat := by omega
            simp [charListLe, hac]
        · by_cases hba : b.toNat < a.toNat
          · simp [charListLe, hab, hba] at h1
          · have hac : a.toNat < c.toNat := by omega
            simp [charListLe, hac]
        · by_cases hba : b.toNat < a.toNat
          · simp [charListLe, hab, hba] at h1
          · by_cases hcb : c.toNat < b.toNat
            · simp [charListLe, hbc, hcb] at h2
            · have h1' : charListLe as bs = true := by
                simpa [charListLe, hab, hba] using h1
              have h2' : charListLe bs cs = true := by
                simpa [charListLe, hbc, hcb] using h2
              have hac1 : ¬ a.toNat < c.toNat := by omega
              have hac2 : ¬ c.toNat < a.toNat := by omega
              simp [charListLe, hac1, hac2, ih bs cs h1' h2']

theorem charListLe_antisymm (as : List Char) :
    ∀ bs, charListLe as bs = true → charListLe bs as = true → as = bs := by
  induction as with
  | nil =>
    intro bs h1 h2
    cases bs with
    | nil => rfl
    | cons b bs => simp [charListLe] at h2
  | cons a as ih =>
    intro bs h1 h2
    cases bs with
    | nil => simp [charListLe] at h1
    | cons b bs =>
      by_cases hab : a.toNat < b.toNat
      · have hba : ¬ b.toNat < a.toNat := by omega
        simp [charListLe, hab, hba] at h2
      · by_cases hba : b.toNat < a.toNat
        · simp [charListLe, hab, hba] at h1
        · have h1' : charListLe as bs = true := by
            simpa [charListLe, hab, hba] using h1
          have h2' : charListLe bs as = true := by
            simpa [charListLe, hab, hba] using h2
          have hchar : a = b := by
            have hn : a.toNat = b.toNat := by omega
            have hval : a.val = b.val := by
              cases a; cases b
              exact UInt32.ext (by exact hn)
            exact Char.ext hval
          rw [hchar, ih bs h1' h2']

instance : IsTotal String pyLe :=
  ⟨fun a b => charListLe_total a.data b.data⟩

instance : IsTrans String pyLe :=
  ⟨fun a b c => charListLe_trans a.data b.data c.data⟩

instance : IsAntisymm String pyLe :=
  ⟨fun a b h1 h2 => String.toList_inj.mp (charListLe_antisymm a.data b.data h1 h2)⟩

instance {ε α : Type} [DecidableEq ε] [DecidableEq α] : DecidableEq (Except ε α) :=
  fun x y =>
    match x, y with
    | Except.ok a, Except.ok b =>
      if h : a = b then isTrue (by rw [h])
      else isFalse (fun hc => h (Except.ok.inj hc))
    | Except.error a, Except.error b =>
      if h : a = b then isTrue (by rw [h])
      else isFalse (fun hc => h (Except.error.inj hc))
    | Except.ok _, Except.error _ => isFalse (fun hc => Except.noConfusion hc)
    | Except.error _, Except.ok _ => isFalse (fun hc => Except.noConfusion hc)

/-- A module-level Python statement, as the generator manipulates them:
either an `ast.ImportFrom` (module name, imported alias names, relative
level) or an `ast.Assign` of a list of string constants to a single name
(the shape `generate` builds for `__all__`), carrying its `lineno`. -/
inductive Stmt where
  | importFrom (from_ : String) (names : List String) (level : Nat)
  | assign (target : String) (values : List String) (lineno : Nat)
deriving DecidableEq, Repr

/-- Modelled from the spec: `generate_import_from` lives in
`generators/utils.py`, which is not among the shown sources; per the
ImportSpec data model it builds one import-from statement recording the
requested names, the source module and the relative level. -/
def generate_import_from (names : List String) (from_ : String) (level : Nat) : Stmt :=
  Stmt.importFrom from_ names level

/-- `InitFileGenerator.add_import`: append one import statement to the
generator's `self.imports` list. -/
def add_import (imports : List Stmt) (names : List String) (from_ : String)
    (level : Nat) : List Stmt :=
  imports ++ [generate_import_from names from_ level]

/-- The runtime error raised by Python attribute access on an object
lacking the attribute. -/
inductive PyError where
  | attributeError
deriving DecidableEq, Repr

/-- Python attribute access `stmt.names`: an `ImportFrom` carries a `names`
list of aliases; an `Assign` has no such attribute. -/
def namesAttr : Stmt → Option (List String)
  | Stmt.importFrom _ ns _ => some ns
  | Stmt.assign _ _ _ => none

/-- The loop
`for import_ in self.imports: constants_names.extend([n.name for n in import_.names])`:
concatenates the alias names of every statement in order, or raises
`AttributeError` at the first statement with no `names` attribute. -/
def collectNames : List Stmt → Except PyError (List String)
  | [] => Except.ok []
  | s :: rest =>
    match namesAttr s with
    | none => Except.error PyError.attributeError
    | some ns => (collectNames rest).map (fun tl => ns ++ tl)

/-- `ast.Module`: only the body matters to the generator
(`type_ignores` is always `[]`). -/
structure Module where
  body : List Stmt
deriving DecidableEq, Repr

/-- `constants_names.sort()`: Python's in-place sort on strings orders the
list lexicographically by code points; the result is the unique `pyLe`
sorted permutation. -/
def sortNames (l : List String) : List String :=
  List.insertionSort pyLe l

/-- `InitFileGenerator.generate`. The returned `Module`'s body is the very
`self.imports` list (Python aliasing), so appending the `__all__`
assignment mutates the generator's state; the result is the pair
(returned module, post-call `self.imports`), both the same list. A
statement with no `names` attribute in `self.imports` makes the
name-collection loop raise. -/
def generate (imports : List Stmt) : Except PyError (Module × List Stmt) :=
  if imports = [] then Except.ok (⟨imports⟩, imports)
  else
    match collectNames imports with
    | Except.error e => Except.error e
    | Except.ok names =>
      let body := imports ++
        [Stmt.assign "__all__" (sortNames names) (imports.length + 1)]
      Except.ok (⟨body⟩, body)

/-- The alias names a statement contributes (total version of `namesAttr`,
for stating specifications). -/
def importNames : Stmt → List String
  | Stmt.importFrom _ ns _ => ns
  | Stmt.assign _ _ _ => []

/-- Every statement in the list is an `ImportFrom` (true of the
generator's state whenever only `add_import` has touched it). -/
def allImportFrom : List Stmt → Bool
  | [] => true
  | Stmt.importFrom _ _ _ :: rest => allImportFrom rest
  | Stmt.assign _ _ _ :: _ => false

/-- All names imported across the list, in order, with multiplicity. -/
def namesOf (l : List Stmt) : List String := l.flatMap importNames

/-- Extract the `__all__` export list of a generated module: the value of
a trailing `__all__ = [...]` assignment, when present. -/
def allListOf (m : Module) : Option (List String) :=
  match m.body.getLast? with
  | some (Stmt.assign t vals _) => if t = "__all__" then some vals else none
  | _ => none

theorem collectNames_eq_ok (l : List Stmt) (h : allImportFrom l = true) :
    collectNames l = Except.ok (namesOf l) := by
  induction l with
  | nil => rfl
  | cons s rest ih =>
    cases s with
    | importFrom f ns lv =>
      simp only [allImportFrom] at h
      simp [collectNames, namesAttr, ih h, namesOf, Except.map, importNames]
    | assign t v ln => simp [allImportFrom] at h

theorem collectNames_ok_inv (l : List Stmt) (ns : List String)
    (h : collectNames l = Except.ok ns) :
    allImportFrom l = true ∧ ns = namesOf l := by
  induction l generalizing ns with
  | nil =>
    simp only [collectNames] at h
    cases h
    exact ⟨rfl, rfl⟩
  | cons s rest ih =>
    cases s with
    | importFrom f ns' lv =>
      simp only [collectNames, namesAttr] at h
      cases hrest : collectNames rest with
      | error e => rw [hrest] at h; simp [Except.map] at h
      | ok tl =>
        rw [hrest] at h
        simp only [Except.map] at h
        cases h
        obtain ⟨h1, h2⟩ := ih tl hrest
        exact ⟨h1, by simp [namesOf, h2, importNames]⟩
    | assign t v ln =>
      simp [collectNames, namesAttr] at h

theorem collectNames_append_assign (l : List Stmt) (h : allImportFrom l = true)
    (t : String) (v : List String) (ln : Nat) :
    collectNames (l ++ [Stmt.assign t v ln]) = Except.error PyError.attributeError := by
  induction l with
  | nil => rfl
  | cons s rest ih =>
    cases s with
    | importFrom f ns lv =>
      simp only [allImportFrom] at h
      simp [collectNames, namesAttr, ih h, Except.map]
    | assign t' v' ln' => simp [allImportFrom] at h

theorem generate_of_allImportFrom (l : List Stmt) (hne : l ≠ [])
    (h : allImportFrom l = true) :
    generate l = Except.ok
      (⟨l ++ [Stmt.assign "__all__" (sortNames (namesOf l)) (l.length + 1)]⟩,
        l ++ [Stmt.assign "__all__" (sortNames (namesOf l)) (l.length + 1)]) := by
  simp [generate, hne, collectNames_eq_ok l h]

theorem allListOf_concat_assign (l : List Stmt) (vals : List String) (ln : Nat) :
    allListOf ⟨l ++ [Stmt.assign "__all__" vals ln]⟩ = some vals := by
  simp [allListOf, List.getLast?_concat]

/-- C8: with zero `add_import` calls (empty imports list), `generate`
returns a module whose body is empty — no import statements and no
`__all__` export list — and raises no error. -/
theorem generate_empty_module : generate [] = Except.ok (⟨[]⟩, []) := rfl

/-- C5: whenever `generate` succeeds and the returned module carries an
`__all__` export list, that list is lexicographically sorted (Python's
code-point order `pyLe`), regardless of the order the names were added
in. -/
theorem generate_allList_sorted (imports : List Stmt) (m : Module)
    (s : List Stmt) (vals : List String)
    (hok : generate imports = Except.ok (m, s))
    (hall : allListOf m = some vals) :
    List.Sorted pyLe vals := by
  by_cases hne : imports = []
  · subst hne
    have h0 : generate ([] : List Stmt) =
        Except.ok ((⟨[]⟩ : Module), ([] : List Stmt)) := rfl
    rw [h0] at hok
    injection hok with hpair
    injection hpair with hm hs
    rw [← hm] at hall
    exact Option.noConfusion hall
  · unfold generate at hok
    rw [if_neg hne] at hok
    cases hcoll : collectNames imports with
    | error e => rw [hcoll] at hok; exact Except.noConfusion hok
    | ok names =>
      rw [hcoll] at hok
      injection hok with hpair
      injection hpair with hm hs
      rw [← hm, allListOf_concat_assign] at hall
      injection hall with hv
      rw [← hv]
      exact List.sorted_insertionSort pyLe names

/-- Witness for C5 at a concrete input: two names added out of order come
back sorted. -/
theorem generate_allList_sorted_witness :
    List.Sorted pyLe ["alpha", "beta"] :=
  generate_allList_sorted [Stmt.importFrom "mod" ["beta", "alpha"] 0]
    ⟨[Stmt.importFrom "mod" ["beta", "alpha"] 0,
      Stmt.assign "__all__" ["alpha", "beta"] 2]⟩
    [Stmt.importFrom "mod" ["beta", "alpha"] 0,
      Stmt.assign "__all__" ["alpha", "beta"] 2]
    ["alpha", "beta"] (by decide) (by decide)

/-- C1 counterexample: two modules export the same symbol name "A".
`generate` raises no error at all (the code has no `DuplicateExportError`)
and the `__all__` list it builds contains the name twice. -/
theorem generate_duplicate_export_no_error :
    generate [Stmt.importFrom "m1" ["A"] 0, Stmt.importFrom "m2" ["A"] 0] =
      Except.ok
        (⟨[Stmt.importFrom "m1" ["A"] 0, Stmt.importFrom "m2" ["A"] 0,
           Stmt.assign "__all__" ["A", "A"] 3]⟩,
         [Stmt.importFrom "m1" ["A"] 0, Stmt.importFrom "m2" ["A"] 0,
           Stmt.assign "__all__" ["A", "A"] 3]) := by decide

/-- C1 amended: on any non-empty import-only state, `generate` succeeds
(no error is ever raised for a name collision) and the `__all__` list is a
sorted permutation of the concatenation of every imported name — so
multiplicity is preserved and a name exported by two modules appears
twice. -/
theorem generate_keeps_duplicates (imports : List Stmt)
    (h : allImportFrom imports = true) (hne : imports ≠ []) :
    generate imports = Except.ok
      (⟨imports ++
        [Stmt.assign "__all__" (sortNames (namesOf imports)) (imports.length + 1)]⟩,
       imports ++
        [Stmt.assign "__all__" (sortNames (namesOf imports)) (imports.length + 1)]) ∧
    (sortNames (namesOf imports)).Perm (namesOf imports) := by
  exact ⟨generate_of_allImportFrom imports hne h,
    List.perm_insertionSort pyLe (namesOf imports)⟩

/-- Witness for the amended C1 at a concrete input with a collision
(the name "A" is exported by both modules). -/
theorem generate_keeps_duplicates_witness :
    generate [Stmt.importFrom "m1" ["A"] 0, Stmt.importFrom "m2" ["A"] 0] =
      Except.ok
        (⟨[Stmt.importFrom "m1" ["A"] 0, Stmt.importFrom "m2" ["A"] 0] ++
          [Stmt.assign "__all__"
            (sortNames (namesOf [Stmt.importFrom "m1" ["A"] 0, Stmt.importFrom "m2" ["A"] 0]))
            ([Stmt.importFrom "m1" ["A"] 0, Stmt.importFrom "m2" ["A"] 0].length + 1)]⟩,
         [Stmt.importFrom "m1" ["A"] 0, Stmt.importFrom "m2" ["A"] 0] ++
          [Stmt.assign "__all__"
            (sortNames (namesOf [Stmt.importFrom "m1" ["A"] 0, Stmt.importFrom "m2" ["A"] 0]))
            ([Stmt.importFrom "m1" ["A"] 0, Stmt.importFrom "m2" ["A"] 0].length + 1)]) ∧
    (sortNames (namesOf [Stmt.importFrom "m1" ["A"] 0, Stmt.importFrom "m2" ["A"] 0])).Perm
      (namesOf [Stmt.importFrom "m1" ["A"] 0, Stmt.importFrom "m2" ["A"] 0]) :=
  generate_keeps_duplicates
    [Stmt.importFrom "m1" ["A"] 0, Stmt.importFrom "m2" ["A"] 0]
    (by decide) (by decide)

/-- C4 counterexample: adding the same two imports in the two orders
yields different manifests — the module body lists the import statements
in addition order, so the generated module is not invariant to input
order (only its sorted `__all__` list is). -/
theorem generate_not_order_invariant :
    generate [Stmt.importFrom "a" ["B"] 0, Stmt.importFrom "b" ["A"] 0] ≠
      generate [Stmt.importFrom "b" ["A"] 0, Stmt.importFrom "a" ["B"] 0] := by
  decide

/-- C4 amended: the sorted `__all__` name list is invariant under
permutation of the imports: whenever `generate` succeeds on two states
that are permutations of each other, the two returned modules carry the
same `__all__` export list (the import statements themselves follow
addition order, so the full modules may differ). -/
theorem generate_allList_perm_invariant (l1 l2 : List Stmt)
    (m1 m2 : Module) (s1 s2 : List Stmt) (hp : l1.Perm l2)
    (h1 : generate l1 = Except.ok (m1, s1))
    (h2 : generate l2 = Except.ok (m2, s2)) :
    allListOf m1 = allListOf m2 := by
  by_cases hne : l1 = []
  · subst hne
    have hl2 : l2 = [] := hp.symm.eq_nil
    subst hl2
    have h0 : generate ([] : List Stmt) =
        Except.ok ((⟨[]⟩ : Module), ([] : List Stmt)) := rfl
    rw [h0] at h1 h2
    injection h1 with hp1
    injection hp1 with hm1 hs1
    injection h2 with hp2
    injection hp2 with hm2 hs2
    rw [← hm1, ← hm2]
  · have hne2 : l2 ≠ [] := fun h => hne (by subst h; exact hp.eq_nil)
    unfold generate at h1 h2
    rw [if_neg hne] at h1
    rw [if_neg hne2] at h2
    cases hc1 : collectNames l1 with
    | error e => rw [hc1] at h1; exact Except.noConfusion h1
    | ok ns1 =>
      cases hc2 : collectNames l2 with
      | error e => rw [hc2] at h2; exact Except.noConfusion h2
      | ok ns2 =>
        rw [hc1] at h1
        rw [hc2] at h2
        injection h1 with hp1
        injection hp1 with hm1 hs1
        injection h2 with hp2
        injection hp2 with hm2 hs2
        rw [← hm1, ← hm2, allListOf_concat_assign, allListOf_concat_assign]
        obtain ⟨ha1, hn1⟩ := collectNames_ok_inv l1 ns1 hc1
        obtain ⟨ha2, hn2⟩ := collectNames_ok_inv l2 ns2 hc2
        subst hn1
        subst hn2
        have hperm : (namesOf l1).Perm (namesOf l2) := hp.flatMap_right importNames
        have hsort : sortNames (namesOf l1) = sortNames (namesOf l2) :=
          List.eq_of_perm_of_sorted
            ((List.perm_insertionSort pyLe (namesOf l1)).trans
              (hperm.trans (List.perm_insertionSort pyLe (namesOf l2)).symm))
            (List.sorted_insertionSort pyLe (namesOf l1))
            (List.sorted_insertionSort pyLe (namesOf l2))
        rw [hsort]

/-- Witness for the amended C4 at a concrete input: the two orders of the
same two imports give modules with equal `__all__` lists. -/
theorem generate_allList_perm_invariant_witness :
    allListOf ⟨[Stmt.importFrom "a" ["B"] 0, Stmt.importFrom "b" ["A"] 0,
      Stmt.assign "__all__" ["A", "B"] 3]⟩ =
    allListOf ⟨[Stmt.importFrom "b" ["A"] 0, Stmt.importFrom "a" ["B"] 0,
      Stmt.assign "__all__" ["A", "B"] 3]⟩ :=
  generate_allList_perm_invariant
    [Stmt.importFrom "a" ["B"] 0, Stmt.importFrom "b" ["A"] 0]
    [Stmt.importFrom "b" ["A"] 0, Stmt.importFrom "a" ["B"] 0]
    ⟨[Stmt.importFrom "a" ["B"] 0, Stmt.importFrom "b" ["A"] 0,
      Stmt.assign "__all__" ["A", "B"] 3]⟩
    ⟨[Stmt.importFrom "b" ["A"] 0, Stmt.importFrom "a" ["B"] 0,
      Stmt.assign "__all__" ["A", "B"] 3]⟩
    [Stmt.importFrom "a" ["B"] 0, Stmt.importFrom "b" ["A"] 0,
      Stmt.assign "__all__" ["A", "B"] 3]
    [Stmt.importFrom "b" ["A"] 0, Stmt.importFrom "a" ["B"] 0,
      Stmt.assign "__all__" ["A", "B"] 3]
    (by decide) (by decide) (by decide)

/-- C10 counterexample: after one `generate` on a single-import state, the
post-call state holds the appended `__all__` assignment, and a second
`generate` call raises `AttributeError` (an `Assign` node has no `names`
attribute) instead of returning a module with two `__all__`
assignments. -/
theorem generate_second_call_attribute_error :
    generate [Stmt.importFrom "m" ["A"] 0] =
      Except.ok
        (⟨[Stmt.importFrom "m" ["A"] 0, Stmt.assign "__all__" ["A"] 2]⟩,
         [Stmt.importFrom "m" ["A"] 0, Stmt.assign "__all__" ["A"] 2]) ∧
    generate [Stmt.importFrom "m" ["A"] 0, Stmt.assign "__all__" ["A"] 2] =
      Except.error PyError.attributeError := by decide

/-- C10 amended: `generate` is not idempotent and mutates the generator's
state — the returned module body is the imports list with the `__all__`
assignment appended, and that very list is the post-call state — but a
second call on that state raises `AttributeError` when its
name-collection loop reaches the appended `Assign`, rather than returning
a module with two `__all__` assignments. -/
theorem generate_not_idempotent (imports : List Stmt)
    (h : allImportFrom imports = true) (hne : imports ≠ []) :
    ∃ s : List Stmt,
      generate imports = Except.ok (⟨s⟩, s) ∧
      generate s = Except.error PyError.attributeError := by
  refine ⟨imports ++
    [Stmt.assign "__all__" (sortNames (namesOf imports)) (imports.length + 1)],
    generate_of_allImportFrom imports hne h, ?_⟩
  have hne' : imports ++
      [Stmt.assign "__all__" (sortNames (namesOf imports)) (imports.length + 1)] ≠ [] := by
    simp
  unfold generate
  rw [if_neg hne', collectNames_append_assign imports h]

/-- Witness for the amended C10 at a concrete single-import state. -/
theorem generate_not_idempotent_witness :
    ∃ s : List Stmt,
      generate [Stmt.importFrom "m" ["X"] 0] = Except.ok (⟨s⟩, s) ∧
      generate s = Except.error PyError.attributeError :=
  generate_not_idempotent [Stmt.importFrom "m" ["X"] 0] (by decide) (by decide)

/-!
Part 3 models the Type-Expression Builder's union annotation. The
`generate_union_annotation` function of the codegen module is not among
the shown sources — only its tests are — so it is modelled from the spec.
-/

/-- A generated-language annotation expression (`ast.Name`, `ast.Tuple`,
`ast.Subscript`). -/
inductive PyExpr where
  | name (id : String)
  | tupleE (elts : List PyExpr)
  | subscript (value : PyExpr) (slice : PyExpr)

/-- The `UNION` constant of the generator. -/
def UNION : String := "Union"

/-- The `OPTIONAL` constant of the generator. -/
def OPTIONAL : String := "Optional"

/-- Modelled from the spec: `generate_union_annotation` of the codegen
module is missing from the shown sources (only its tests are shown); per
the spec's TypeExpression invariant and the tests, it builds the
subscript `Union[variant1, ..., variantn]` over the variants in
declaration order and wraps it in exactly one `Optional[...]` layer when
the nullable flag is set. -/
def generate_union_annotation (types : List PyExpr) (nullable : Bool) : PyExpr :=
  let result := PyExpr.subscript (PyExpr.name UNION) (PyExpr.tupleE types)
  if nullable then PyExpr.subscript (PyExpr.name OPTIONAL) result else result

/-- C9: for every list of at least two variant annotations, the nullable
union annotation wraps the Union subscript in exactly one Optional layer
(the node under Optional is the Union name, never another Optional), the
variants appear in exactly declaration order, and with the nullable flag
false no Optional layer is added. -/
theorem generate_union_annotation_spec (types : List PyExpr)
    (h : 2 ≤ types.length) :
    generate_union_annotation types true =
      PyExpr.subscript (PyExpr.name OPTIONAL)
        (PyExpr.subscript (PyExpr.name UNION) (PyExpr.tupleE types)) ∧
    generate_union_annotation types false =
      PyExpr.subscript (PyExpr.name UNION) (PyExpr.tupleE types) :=
  ⟨rfl, rfl⟩

/-- Witness for C9 at the tests' concrete input `[Xyz1, Xyz2]`. -/
theorem generate_union_annotation_spec_witness :
    generate_union_annotation [PyExpr.name "Xyz1", PyExpr.name "Xyz2"] true =
      PyExpr.subscript (PyExpr.name OPTIONAL)
        (PyExpr.subscript (PyExpr.name UNION)
          (PyExpr.tupleE [PyExpr.name "Xyz1", PyExpr.name "Xyz2"])) ∧
    generate_union_annotation [PyExpr.name "Xyz1", PyExpr.name "Xyz2"] false =
      PyExpr.subscript (PyExpr.name UNION)
        (PyExpr.tupleE [PyExpr.name "Xyz1", PyExpr.name "Xyz2"]) :=
  generate_union_annotation_spec [PyExpr.name "Xyz1", PyExpr.name "Xyz2"] (by decide)

/-!
Part 4 models the runtime client contract of the generated code
(`async_base_client.py` / `base_model.py` dependencies). Only their tests
are among the shown sources, so the operations are modelled from the
spec (§6): variable serialization with absent-entry stripping, and
`get_data` response classification.
-/

/-- A variables value as passed to `execute`: the three-state
absent (`UNSET`) / explicit null / present value model, with nested
records and lists. -/
inductive Var where
  | unset
  | null
  | boolV (b : Bool)
  | intV (n : Int)
  | strV (s : String)
  | listV (items : List Var)
  | dictV (fields : List (String × Var))

mutual

/-- Modelled from the spec: the generated client's variable serialization
(the payload preparation inside `execute`, missing from the shown
sources): a structural transform that removes every record entry whose
value is absent (`UNSET`) at every nesting depth — inside nested records
and inside list elements — while preserving explicit-null entries. -/
def serializeVar : Var → Var
  | Var.dictV fields => Var.dictV (serializeFields fields)
  | Var.listV items => Var.listV (serializeItems items)
  | v => v

/-- Serialize a record's entries, dropping those whose value is absent. -/
def serializeFields : List (String × Var) → List (String × Var)
  | [] => []
  | (k, v) :: rest =>
    match v with
    | Var.unset => serializeFields rest
    | _ => (k, serializeVar v) :: serializeFields rest

/-- Serialize list elements in place. -/
def serializeItems : List Var → List Var
  | [] => []
  | v :: rest => serializeVar v :: serializeItems rest

end

mutual

/-- Whether a value still contains, at any nesting depth, a record entry
whose value is absent. -/
def hasUnsetEntry : Var → Bool
  | Var.dictV fields => fieldsHaveUnset fields
  | Var.listV items => itemsHaveUnset items
  | _ => false

/-- Whether a record entry list contains an absent entry at any depth. -/
def fieldsHaveUnset : List (String × Var) → Bool
  | [] => false
  | (_, Var.unset) :: _ => true
  | (_, v) :: rest => hasUnsetEntry v || fieldsHaveUnset rest

/-- Whether some list element contains an absent entry at any depth. -/
def itemsHaveUnset : List Var → Bool
  | [] => false
  | v :: rest => hasUnsetEntry v || itemsHaveUnset rest

end

mutual

theorem hasUnset_serializeVar : ∀ v : Var, hasUnsetEntry (serializeVar v) = false
  | Var.unset => rfl
  | Var.null => rfl
  | Var.boolV _ => rfl
  | Var.intV _ => rfl
  | Var.strV _ => rfl
  | Var.listV items => hasUnset_serializeItems items
  | Var.dictV fields => hasUnset_serializeFields fields

theorem hasUnset_serializeFields : ∀ l : List (String × Var),
    fieldsHaveUnset (serializeFields l) = false
  | [] => rfl
  | (_, Var.unset) :: rest => hasUnset_serializeFields rest
  | (k, Var.null) :: rest => by
    show (hasUnsetEntry (serializeVar Var.null) ||
      fieldsHaveUnset (serializeFields rest)) = false
    rw [hasUnset_serializeVar Var.null, hasUnset_serializeFields rest]
    rfl
  | (k, Var.boolV b) :: rest => by
    show (hasUnsetEntry (serializeVar (Var.boolV b)) ||
      fieldsHaveUnset (serializeFields rest)) = false
    rw [hasUnset_serializeVar (Var.boolV b), hasUnset_serializeFields rest]
    rfl
  | (k, Var.intV n) :: rest => by
    show (hasUnsetEntry (serializeVar (Var.intV n)) ||
      fieldsHaveUnset (serializeFields rest)) = false
    rw [hasUnset_serializeVar (Var.intV n), hasUnset_serializeFields rest]
    rfl
  | (k, Var.strV s) :: rest => by
    show (hasUnsetEntry (serializeVar (Var.strV s)) ||
      fieldsHaveUnset (serializeFields rest)) = false
    rw [hasUnset_serializeVar (Var.strV s), hasUnset_serializeFields rest]
    rfl
  | (k, Var.listV items) :: rest => by
    show (hasUnsetEntry (serializeVar (Var.listV items)) ||
      fieldsHaveUnset (serializeFields rest)) = false
    rw [hasUnset_serializeVar (Var.listV items), hasUnset_serializeFields rest]
    rfl
  | (k, Var.dictV fs) :: rest => by
    show (hasUnsetEntry (serializeVar (Var.dictV fs)) ||
      fieldsHaveUnset (serializeFields rest)) = false
    rw [hasUnset_serializeVar (Var.dictV fs), hasUnset_serializeFields rest]
    rfl

theorem hasUnset_serializeItems : ∀ l : List Var,
    itemsHaveUnset (serializeItems l) = false
  | [] => rfl
  | v :: rest => by
    show (hasUnsetEntry (serializeVar v) ||
      itemsHaveUnset (serializeItems rest)) = false
    rw [hasUnset_serializeVar v, hasUnset_serializeItems rest]
    rfl

end

theorem serializeFields_preserves_null (l : List (String × Var)) (k : String)
    (h : (k, Var.null) ∈ l) : (k, Var.null) ∈ serializeFields l := by
  induction l with
  | nil => cases h
  | cons p rest ih =>
    obtain ⟨k', v⟩ := p
    rcases List.mem_cons.mp h with heq | hmem
    · injection heq with hk hv
      subst hk
      rw [← hv]
      exact List.mem_cons_self _ _
    · cases v with
      | unset => exact ih hmem
      | null => exact List.mem_cons_of_mem _ (ih hmem)
      | boolV b => exact List.mem_cons_of_mem _ (ih hmem)
      | intV n => exact List.mem_cons_of_mem _ (ih hmem)
      | strV s => exact List.mem_cons_of_mem _ (ih hmem)
      | listV items => exact List.mem_cons_of_mem _ (ih hmem)
      | dictV fs => exact List.mem_cons_of_mem _ (ih hmem)

/-- C2: variable serialization removes every absent (`UNSET`) record entry
at every nesting depth while preserving explicit-null entries; in
particular the spec's example
`{"a": UNSET, "b": None, "c": {"d": UNSET, "e": 1}}` serializes to
`{"b": None, "c": {"e": 1}}`. -/
theorem serialize_strips_unset_preserves_null :
    (∀ v : Var, hasUnsetEntry (serializeVar v) = false) ∧
    (∀ (fields : List (String × Var)) (k : String), (k, Var.null) ∈ fields →
      (k, Var.null) ∈ serializeFields fields) ∧
    serializeVar (Var.dictV [("a", Var.unset), ("b", Var.null),
        ("c", Var.dictV [("d", Var.unset), ("e", Var.intV 1)])]) =
      Var.dictV [("b", Var.null), ("c", Var.dictV [("e", Var.intV 1)])] :=
  ⟨hasUnset_serializeVar, serializeFields_preserves_null, rfl⟩

/-- Witness for C2 at concrete inputs: a nested absent entry disappears
and an explicit-null entry survives. -/
theorem serialize_strips_unset_preserves_null_witness :
    hasUnsetEntry (serializeVar (Var.dictV [("x", Var.unset)])) = false ∧
    ("b", Var.null) ∈ serializeFields [("a", Var.unset), ("b", Var.null)] :=
  ⟨serialize_strips_unset_preserves_null.1 (Var.dictV [("x", Var.unset)]),
   serialize_strips_unset_preserves_null.2.1 [("a", Var.unset), ("b", Var.null)] "b"
     (List.mem_cons_of_mem _ (List.mem_cons_self _ _))⟩

/-- A parsed JSON value (the structured form of a response body). -/
inductive Json where
  | null
  | boolV (b : Bool)
  | numV (n : Int)
  | strV (s : String)
  | arrV (items : List Json)
  | objV (fields : List (String × Json))

/-- Python `dict` lookup on a parsed JSON object. -/
def jsonLookup : List (String × Json) → String → Option Json
  | [], _ => none
  | (k, v) :: rest, key => if k = key then some v else jsonLookup rest key

/-- Python truthiness of a parsed JSON value (the `if errors:` test):
`None`, `0`, `""`, `[]` and `{}` are falsy; everything else is truthy. -/
def jsonTruthy : Json → Bool
  | Json.null => false
  | Json.boolV b => b
  | Json.numV n => n != 0
  | Json.strV s => s != ""
  | Json.arrV items => !items.isEmpty
  | Json.objV fields => !fields.isEmpty

/-- A raw transport response: HTTP status code, raw body text, and the
body's parse outcome (`none` when the body is not parseable as
structured data). -/
structure Response where
  status_code : Nat
  body : String
  parsed : Option Json

/-- The runtime client's error taxonomy (§6/§7): `HttpError` carries the
status code and raw body; `GraphQLMultiError` carries all reported error
entries and the accompanying data value. -/
inductive GraphQLClientError where
  | httpError (status_code : Nat) (body : String)
  | invalidResponseError
  | graphQLMultiError (errors : Json) (data : Json)

/-- Modelled from the spec: `AsyncBaseClient.get_data` of
`async_base_client.py` is missing from the shown sources (only its tests
are). Per §6: a non-2xx status fails with `HttpError` (status code and
raw body) before any payload parsing; an unparseable body or a parsed
body that is not a mapping with a `data` key fails with
`InvalidResponseError`; a truthy `errors` entry fails with
`GraphQLMultiError` carrying all reported error entries even when `data`
is present; otherwise the `data` value is returned. -/
def get_data (r : Response) : Except GraphQLClientError Json :=
  if ¬ (200 ≤ r.status_code ∧ r.status_code < 300) then
    Except.error (GraphQLClientError.httpError r.status_code r.body)
  else
    match r.parsed with
    | none => Except.error GraphQLClientError.invalidResponseError
    | some (Json.objV fields) =>
      match jsonLookup fields "data" with
      | none => Except.error GraphQLClientError.invalidResponseError
      | some data =>
        match jsonLookup fields "errors" with
        | some errs =>
          if jsonTruthy errs then
            Except.error (GraphQLClientError.graphQLMultiError errs data)
          else Except.ok data
        | none => Except.ok data
    | some _ => Except.error GraphQLClientError.invalidResponseError

theorem get_data_reduces (r : Response) (fields : List (String × Json))
    (data : Json)
    (hs : 200 ≤ r.status_code ∧ r.status_code < 300)
    (hp : r.parsed = some (Json.objV fields))
    (hd : jsonLookup fields "data" = some data) :
    get_data r = (match jsonLookup fields "errors" with
      | some errs =>
        if jsonTruthy errs then
          Except.error (GraphQLClientError.graphQLMultiError errs data)
        else Except.ok data
      | none => Except.ok data) := by
  unfold get_data
  rw [if_neg (not_not_intro hs), hp]
  simp only [hd]

/-- C7: every response with a non-2xx status code fails with `HttpError`
carrying the status code and the raw body, regardless of the body's parse
outcome (the status check precedes any parsing). -/
theorem get_data_http_error (r : Response)
    (h : ¬ (200 ≤ r.status_code ∧ r.status_code < 300)) :
    get_data r = Except.error (GraphQLClientError.httpError r.status_code r.body) := by
  unfold get_data
  rw [if_pos h]

/-- Witness for C7: a 404 response whose body is not even parseable still
fails with `HttpError`, not a parse error. -/
theorem get_data_http_error_witness :
    get_data ⟨404, "Not Found", none⟩ =
      Except.error (GraphQLClientError.httpError 404 "Not Found") :=
  get_data_http_error ⟨404, "Not Found", none⟩ (by decide)

/-- C3: on a 2xx response whose parsed body has a `data` key, `get_data`
fails with `GraphQLMultiError` (carrying all reported error entries and
the data value) exactly when the `errors` entry is present and truthy —
even when `data` is present and non-empty — and returns the data when the
`errors` entry is falsy (in particular an empty list or null) or
absent. -/
theorem get_data_multi_error_iff (r : Response)
    (fields : List (String × Json)) (data : Json)
    (hs : 200 ≤ r.status_code ∧ r.status_code < 300)
    (hp : r.parsed = some (Json.objV fields))
    (hd : jsonLookup fields "data" = some data) :
    (∀ errs, jsonLookup fields "errors" = some errs → jsonTruthy errs = true →
      get_data r = Except.error (GraphQLClientError.graphQLMultiError errs data)) ∧
    (∀ errs, jsonLookup fields "errors" = some errs → jsonTruthy errs = false →
      get_data r = Except.ok data) ∧
    (jsonLookup fields "errors" = none → get_data r = Except.ok data) ∧
    jsonTruthy (Json.arrV []) = false ∧ jsonTruthy Json.null = false := by
  refine ⟨?_, ?_, ?_, rfl, rfl⟩
  · intro errs he ht
    rw [get_data_reduces r fields data hs hp hd, he]
    simp [ht]
  · intro errs he ht
    rw [get_data_reduces r fields data hs hp hd, he]
    simp [ht]
  · intro hnone
    rw [get_data_reduces r fields data hs hp hd, hnone]

/-- Witness for C3: a 2xx response with non-empty `data` and a non-empty
`errors` list still fails with `GraphQLMultiError` carrying the error
entries. -/
theorem get_data_multi_error_iff_witness :
    get_data ⟨200, "",
      some (Json.objV [("data", Json.objV [("f", Json.numV 1)]),
        ("errors", Json.arrV [Json.objV [("message", Json.strV "boom")]])])⟩ =
      Except.error (GraphQLClientError.graphQLMultiError
        (Json.arrV [Json.objV [("message", Json.strV "boom")]])
        (Json.objV [("f", Json.numV 1)])) :=
  (get_data_multi_error_iff
    ⟨200, "",
      some (Json.objV [("data", Json.objV [("f", Json.numV 1)]),
        ("errors", Json.arrV [Json.objV [("message", Json.strV "boom")]])])⟩
    [("data", Json.objV [("f", Json.numV 1)]),
      ("errors", Json.arrV [Json.objV [("message", Json.strV "boom")]])]
    (Json.objV [("f", Json.numV 1)])
    (by decide) rfl rfl).1
    (Json.arrV [Json.objV [("message", Json.strV "boom")]]) rfl rfl

/-- C6: on a 2xx response, `get_data` fails with `InvalidResponseError`
when the body is unparseable or the parsed body is not a mapping with a
`data` key; otherwise, when no truthy `errors` entry is present, it
returns exactly the `data` value (which may be an empty mapping). -/
theorem get_data_invalid_or_returns_data (r : Response)
    (hs : 200 ≤ r.status_code ∧ r.status_code < 300) :
    (r.parsed = none →
      get_data r = Except.error GraphQLClientError.invalidResponseError) ∧
    (∀ s, r.parsed = some (Json.strV s) →
      get_data r = Except.error GraphQLClientError.invalidResponseError) ∧
    (∀ fields, r.parsed = some (Json.objV fields) →
      jsonLookup fields "data" = none →
      get_data r = Except.error GraphQLClientError.invalidResponseError) ∧
    (∀ fields data, r.parsed = some (Json.objV fields) →
      jsonLookup fields "data" = some data →
      (∀ errs, jsonLookup fields "errors" = some errs → jsonTruthy errs = false) →
      get_data r = Except.ok data) := by
  refine ⟨?_, ?_, ?_, ?_⟩
  · intro hp
    unfold get_data
    rw [if_neg (not_not_intro hs), hp]
  · intro s hp
    unfold get_data
    rw [if_neg (not_not_intro hs), hp]
  · intro fields hp hd
    unfold get_data
    rw [if_neg (not_not_intro hs), hp]
    simp only [hd]
  · intro fields data hp hd herr
    rw [get_data_reduces r fields data hs hp hd]
    cases he : jsonLookup fields "errors" with
    | none => rfl
    | some errs => simp [herr errs he]

/-- Witness for C6: a 2xx response whose `data` is an empty mapping and
whose `errors` entry is absent yields exactly that empty mapping. -/
theorem get_data_invalid_or_returns_data_witness :
    get_data ⟨200, "", some (Json.objV [("data", Json.objV [])])⟩ =
      Except.ok (Json.objV []) :=
  (get_data_invalid_or_returns_data
    ⟨200, "", some (Json.objV [("data", Json.objV [])])⟩ (by decide)).2.2.2
    [("data", Json.objV [])] (Json.objV []) rfl rfl
    (fun errs h => Option.noConfusion h)

end GraphQLSdkGen
